import Mathlib

/-!
# Verification of the pdf-dost PDF transformation service

Shallow embedding of the orchestration logic of `server/services/pdfService.js`
(and its variants in the repository): hex-color decoding, page-number template
expansion, the header/footer page loop, the split planner, the merge
orchestrator with batch/individual page-copy fallback and post-save
validation, and the multi-profile compression search.

The underlying pdf-lib primitives (load, copyPages, save, drawText) are out of
scope per the specification; they are modelled as oracle parameters (success
flags, produced sizes, re-load results).  Everything that the service itself
computes — clamping, loop bounds, batch sizing, candidate selection,
validation checks — is translated directly from the JavaScript source.
-/

set_option autoImplicit false

namespace PdfDost

/-! ## ColorCodec: `hexToRgb`

JS source:
```
static hexToRgb(hex) {
  const result = /^#?([a-f\d]{2})([a-f\d]{2})([a-f\d]{2})$/i.exec(hex);
  return result ? { r: parseInt(result[1], 16) / 255, ... } : { r: 0, g: 0, b: 0 };
}
```
Strings are modelled as `List Char`.  The character class `[a-f\d]` with the
`i` flag is exactly the ASCII ranges 0-9 (48-57), a-f (97-102), A-F (65-70).
-/

/-- `[a-f\d]` with the case-insensitive flag, as ASCII code ranges. -/
def isHexDig (c : Char) : Bool :=
  (48 ≤ c.toNat && c.toNat ≤ 57) || (97 ≤ c.toNat && c.toNat ≤ 102) ||
    (65 ≤ c.toNat && c.toNat ≤ 70)

/-- Value of one hex digit, as `parseInt(·, 16)` computes it (0 on non-digits,
which `hexToRgb` never reaches because the regex matched first). -/
def hexVal (c : Char) : Nat :=
  if 48 ≤ c.toNat && c.toNat ≤ 57 then c.toNat - 48
  else if 97 ≤ c.toNat && c.toNat ≤ 102 then c.toNat - 87
  else if 65 ≤ c.toNat && c.toNat ≤ 70 then c.toNat - 55
  else 0

/-- The regex `^#?...$` consumes one optional leading `#`; if the leading
character is `#` the six-digit groups must match what follows (a second `#`
is not a hex digit, so backtracking cannot succeed either way). -/
def hexBody (s : List Char) : List Char :=
  match s with
  | '#' :: r => r
  | r => r

/-- `parseInt(xy, 16) / 255` for a two-hex-digit group. -/
def componentVal (a b : Char) : ℚ :=
  ((hexVal a * 16 + hexVal b : ℕ) : ℚ) / 255

/-- Whether the whole string matches `/^#?([a-f\d]{2}){3}$/i`. -/
def matchesHex (s : List Char) : Bool :=
  match hexBody s with
  | [a, b, c, d, e, f] =>
    isHexDig a && isHexDig b && isHexDig c && isHexDig d && isHexDig e && isHexDig f
  | _ => false

/-- `hexToRgb`: normalized RGB triple on a regex match, else black. -/
def hexToRgb (s : List Char) : ℚ × ℚ × ℚ :=
  match hexBody s with
  | [a, b, c, d, e, f] =>
    if isHexDig a && isHexDig b && isHexDig c && isHexDig d && isHexDig e && isHexDig f then
      (componentVal a b, componentVal c d, componentVal e f)
    else (0, 0, 0)
  | _ => (0, 0, 0)

/-! ## TemplateEngine: `processTemplate`

JS source:
```
static processTemplate(text, pageNum, totalPages) {
  return text
    .replace(/Page \(x\) of \(y\)/g, `Page ${pageNum} of ${totalPages}`)
    .replace(/\(x\) of \(y\)/g, `${pageNum} of ${totalPages}`)
    .replace(/Page \(x\)/g, `Page ${pageNum}`)
    .replace(/\(x\)/g, pageNum.toString())
    .replace(/\(file\)/g, 'Document');
}
```
Each regex is a literal string (the parentheses are escaped), so
`.replace(/lit/g, repl)` is global left-to-right non-overlapping literal
substitution; the replacement text is not rescanned. -/

/-- One global literal replacement pass, fuelled by the input length (each
step consumes at least one character of `s`, so `s.length` fuel suffices). -/
def replaceAllAux (pat repl : List Char) : Nat → List Char → List Char
  | fuel + 1, c :: rest =>
    if !pat.isEmpty && pat.isPrefixOf (c :: rest) then
      repl ++ replaceAllAux pat repl fuel (List.drop pat.length (c :: rest))
    else
      c :: replaceAllAux pat repl fuel rest
  | _, s => s

/-- `text.replace(/pat/g, repl)` for a literal pattern. -/
def replaceAll (pat repl s : List Char) : List Char :=
  replaceAllAux pat repl s.length s

/-- The five substitutions of `processTemplate`, in source order
(`${pageNum}` and `${totalPages}` are decimal renderings). -/
def processTemplate (text : List Char) (pageNum totalPages : Nat) : List Char :=
  replaceAll "(file)".toList "Document".toList
    (replaceAll "(x)".toList (toString pageNum).toList
      (replaceAll "Page (x)".toList ("Page ".toList ++ (toString pageNum).toList)
        (replaceAll "(x) of (y)".toList
          ((toString pageNum).toList ++ " of ".toList ++ (toString totalPages).toList)
          (replaceAll "Page (x) of (y)".toList
            ("Page ".toList ++ (toString pageNum).toList ++ " of ".toList
              ++ (toString totalPages).toList) text))))

/-! ## Watermark numeric normalization (`addWatermarkToPDF`)

JS source (identical in `server/services/pdfService.js` and `unnamed/part_007`):
```
const watermarkOpacity = Math.max(0, Math.min(1, parseFloat(opacity)));
const watermarkSize = parseInt(fontSize) || 48;
const watermarkRotation = parseInt(rotation) || 45;
```
A JS number that `parseFloat`/`parseInt` cannot parse is `NaN`; we model the
parse result as an `Option` (`none` = `NaN`).  `Math.min`/`Math.max`
propagate `NaN`, and `NaN || d` and `0 || d` both yield the default `d`. -/

/-- `Math.max(0, Math.min(1, parseFloat(opacity)))` with `NaN` propagation. -/
def watermarkOpacity (opacity : Option ℚ) : Option ℚ :=
  match opacity with
  | none => none
  | some v => some (max 0 (min 1 v))

/-- `parseInt(fontSize) || 48`. -/
def watermarkSize (fontSize : Option ℤ) : ℤ :=
  match fontSize with
  | none => 48
  | some v => if v = 0 then 48 else v

/-- `parseInt(rotation) || 45`. -/
def watermarkRotation (rotation : Option ℤ) : ℤ :=
  match rotation with
  | none => 45
  | some v => if v = 0 then 45 else v

/-! ## Header/footer page loop (`addHeaderFooterToPDF`)

JS source:
```
for (let i = startPage - 1; i < pages.length; i++) {
  const page = pages[i];
  const { width } = page.getSize();
  ...
}
```
There is no clamping of `startPage - 1`.  When `i` is negative the loop guard
`i < pages.length` still holds, `pages[i]` is `undefined`, and
`page.getSize()` throws a `TypeError` which the surrounding `try`/`catch`
rewraps as `PDF processing failed: ...`.  The loop is modelled as the list of
0-based page indices it touches, or that error. -/

/-- The page loop: collects visited indices, errors on a negative index
(`pages[i]` undefined).  Fuel `pageCount + 1` covers every reachable
iteration count. -/
def hfLoop (pageCount : Nat) : Nat → ℤ → Except String (List Nat)
  | fuel + 1, i =>
    if i < (pageCount : ℤ) then
      if i < 0 then .error "PDF processing failed"
      else
        match hfLoop pageCount fuel (i + 1) with
        | .ok rest => .ok (i.toNat :: rest)
        | .error e => .error e
    else .ok []
  | 0, _ => .ok []

/-- Indices annotated by `addHeaderFooterToPDF` for a given 1-based
`startPage` (any integer, as in the source) and page count. -/
def headerFooterPageLoop (startPage : ℤ) (pageCount : Nat) : Except String (List Nat) :=
  hfLoop pageCount (pageCount + 1) (startPage - 1)

/-! ## SplitPlanner (`splitPDF`)

The three policy branches of `splitPDF`, modelled as the ordered list of
0-based page-index groups they produce (each group becomes one output
document).  Page numbers arrive as `parseInt` results, modelled as `ℤ`. -/

/-- `pages` mode: one single-page group per in-range entry, in caller order;
`if (pageNum > 0 && pageNum <= totalPages)` filters silently. -/
def pagesGroups (totalPages : Nat) : List ℤ → List (List Nat)
  | [] => []
  | p :: ps =>
    if 0 < p ∧ p ≤ (totalPages : ℤ) then
      [(p - 1).toNat] :: pagesGroups totalPages ps
    else pagesGroups totalPages ps

/-- `ranges` mode: `startPage = Math.max(1, start)`, `endPage =
Math.min(totalPages, end)`; a clamped-empty range is dropped. -/
def rangesGroups (totalPages : Nat) : List (ℤ × ℤ) → List (List Nat)
  | [] => []
  | (s, e) :: rs =>
    let startPage := max 1 s
    let endPage := min (totalPages : ℤ) e
    if startPage ≤ endPage then
      List.range' (startPage - 1).toNat (endPage + 1 - startPage).toNat
        :: rangesGroups totalPages rs
    else rangesGroups totalPages rs

/-- `Math.max(1, parseInt(everyNPages))` as a chunk size. -/
def flooredChunk (everyN : ℤ) : Nat :=
  (max 1 everyN).toNat

/-- `every` mode loop: `for (let i = 0; i < totalPages; i += n)` with group
`[i, min(i + n, totalPages))`.  With `n ≥ 1`, fuel `totalPages` covers every
iteration. -/
def everyNAux (total n : Nat) : Nat → Nat → List (List Nat)
  | 0, _ => []
  | fuel + 1, i =>
    if i < total then
      List.range' i (min (i + n) total - i) :: everyNAux total n fuel (i + n)
    else []

/-- Groups produced by the `every` branch of `splitPDF`. -/
def everyNGroups (totalPages : Nat) (everyN : ℤ) : List (List Nat) :=
  everyNAux totalPages (flooredChunk everyN) totalPages 0

/-- `if (results.length === 0) throw new Error(...)`, applied to whichever
branch produced `results`. -/
def checkGroups (results : List (List Nat)) : Except String (List (List Nat)) :=
  if results.length = 0 then .error "No valid pages or ranges specified for splitting"
  else .ok results

/-- `splitPDF`: dispatch on `splitType` (an unknown type throws before the
empty-result check can run), then the zero-groups check. -/
def splitPDF (splitType : String) (pages : List ℤ) (ranges : List (ℤ × ℤ))
    (everyN : ℤ) (totalPages : Nat) : Except String (List (List Nat)) :=
  if splitType = "pages" then checkGroups (pagesGroups totalPages pages)
  else if splitType = "ranges" then checkGroups (rangesGroups totalPages ranges)
  else if splitType = "every" then checkGroups (everyNGroups totalPages everyN)
  else .error ("Invalid split type: " ++ splitType)

/-! ## MergeOrchestrator (`mergePDFs`, `unnamed/part_007` lines 439-603)

Each input is modelled by its byte size, a load-success flag (load failure or
timeout aborts the whole merge), its page count, and two oracles for the
pdf-lib copy primitive: whether the batch starting at a given page index
throws, and whether the individual retry of a given page throws.  The saved
output is an opaque byte object modelled by what the validation pipeline can
observe of it: the strict re-load result (`none` = load threw) and the four
structural sniff checks of `validatePDFStructure`. -/

/-- One merge input document plus the copy-primitive oracles for it. -/
structure MergeDoc where
  sizeBytes : Nat
  loadOk : Bool
  pageCount : Nat
  /-- whether `mergedPdf.copyPages` throws for the batch starting here -/
  batchFails : Nat → Bool
  /-- whether the individual retry of this page index throws -/
  pageFails : Nat → Bool

/-- `const batchSize = bufferSizeMB > 100 ? 5 : (bufferSizeMB > 20 ? 10 : 20)`
(1 MB = 1048576 bytes; the JS float division is exact for the comparison). -/
def batchSize (sizeBytes : Nat) : Nat :=
  if sizeBytes > 100 * 1048576 then 5
  else if sizeBytes > 20 * 1048576 then 10
  else 20

/-- The batch loop of `mergePDFs`: page indices that end up copied, in order.
A failing batch is retried page by page; pages whose retry also throws are
skipped.  Fuel `d.pageCount` covers every iteration since `bs ≥ 1`. -/
def copyBatches (d : MergeDoc) (bs : Nat) : Nat → Nat → List Nat
  | 0, _ => []
  | fuel + 1, pageStart =>
    if pageStart < d.pageCount then
      let pageEnd := min (pageStart + bs) d.pageCount
      let idxs := List.range' pageStart (pageEnd - pageStart)
      (if d.batchFails pageStart then idxs.filter (fun j => !d.pageFails j) else idxs)
        ++ copyBatches d bs fuel (pageStart + bs)
    else []

/-- All pages of one input that get copied into the merged document. -/
def copiedPages (d : MergeDoc) : List Nat :=
  copyBatches d (batchSize d.sizeBytes) d.pageCount 0

/-- `mergedPdf.getPageCount()` after all inputs: every copied page was added. -/
def totalCopied (docs : List MergeDoc) : Nat :=
  (docs.map (fun d => (copiedPages d).length)).sum

/-- Pages lost to skipping, summed over the inputs. -/
def skippedTotal (docs : List MergeDoc) : Nat :=
  (docs.map (fun d => d.pageCount - (copiedPages d).length)).sum

/-- What validation can observe of the saved byte sequence: strict re-load
page count (`none` = the validation load threw) and the four structural
checks of `validatePDFStructure` (header, trailer, catalog, page tree). -/
structure SavedBytes where
  reloadCount : Option Nat
  headerOk : Bool
  trailerOk : Bool
  catalogOk : Bool
  pagesOk : Bool
deriving DecidableEq

/-- The save primitive for the merged document (`none` = `save` threw). -/
structure MergeEnv where
  saveResult : Option SavedBytes

/-- `mergePDFs`: input-count and aggregate-size guards, load of each input,
batch copy with individual retry, conservative save, then the validation
pipeline — strict re-load, `validatePDFStructure`, and the page-count
equality check — each failure converting the merge into a hard error. -/
def mergePDFs (docs : List MergeDoc) (env : MergeEnv) : Except String SavedBytes :=
  if docs.length = 0 then .error "No PDF files provided for merging"
  else if docs.length = 1 then .error "At least 2 PDF files are required for merging"
  else if docs.foldl (fun acc d => acc + d.sizeBytes) 0 > 500 * 1048576 then
    .error "Total file size exceeds 500MB limit"
  else if !docs.all (fun d => d.loadOk) then .error "Failed to process PDF file"
  else
    match env.saveResult with
    | none => .error "PDF merge failed"
    | some sb =>
      match sb.reloadCount with
      | none => .error "Generated PDF is corrupted and cannot be opened"
      | some c =>
        if !sb.headerOk then .error "Invalid PDF header"
        else if !sb.trailerOk then .error "Invalid PDF trailer - missing EOF"
        else if !sb.catalogOk then .error "Missing PDF catalog"
        else if !sb.pagesOk then .error "Missing PDF pages structure"
        else if c = totalCopied docs then .ok sb
        else .error "Page count mismatch"

/-! ## CompressionAdvisor (`compressPDF`, `getCompressionSettings`)

The save primitive is an oracle from save settings to an optional candidate
(`none` = `finalDoc.save` threw).  A candidate is modelled by its byte length
and by whether the final `PDFDocument.load(bestCompressed)` re-load check
passes.  For the `maximum` tier the document is first rebuilt into a fresh
graph (best effort), so a second oracle describes saves of the rebuilt
document. -/

/-- A tier entry of `getCompressionSettings`. -/
structure CompressionSettings where
  useObjectStreams : Bool
  objectsPerTick : Nat
  compress : Bool
  description : String

/-- `getCompressionSettings(level)`: the four tiers, defaulting to medium. -/
def getCompressionSettings (level : String) : CompressionSettings :=
  if level = "low" then
    ⟨false, 100, true, "Minimal compression, preserves maximum quality"⟩
  else if level = "medium" then
    ⟨true, 25, true, "Balanced compression with good quality"⟩
  else if level = "high" then
    ⟨true, 10, true, "Strong compression, slight quality reduction"⟩
  else if level = "maximum" then
    ⟨false, 1, true, "Maximum compression, quality may be affected"⟩
  else
    ⟨true, 25, true, "Balanced compression with good quality"⟩

/-- The five fields passed to `finalDoc.save`. -/
structure SaveSettings where
  useObjectStreams : Bool
  addDefaultPage : Bool
  objectsPerTick : Nat
  updateFieldAppearances : Bool
  compress : Bool
deriving DecidableEq

/-- A produced candidate byte sequence: its length and whether the final
`PDFDocument.load` re-load check passes on it. -/
structure PDFBytes where
  size : Nat
  validLoad : Bool
deriving DecidableEq

/-- `primarySettings` built from the tier entry. -/
def primarySettings (level : String) : SaveSettings :=
  let s := getCompressionSettings level
  ⟨s.useObjectStreams, false, s.objectsPerTick, false, s.compress⟩

/-- The `alternativeSettings` array tried for `high` and `maximum`. -/
def alternativeSettings : List SaveSettings :=
  [⟨false, false, 5, false, true⟩, ⟨true, false, 1, false, true⟩,
   ⟨false, false, 1, false, true⟩]

/-- The `basicSettings` fallback profile. -/
def basicSettings : SaveSettings :=
  ⟨false, false, 50, false, true⟩

/-- The ordered list of save profiles attempted for a tier: the primary
attempt, then (for `high`/`maximum` only) the alternatives. -/
def compressProfiles (level : String) : List SaveSettings :=
  primarySettings level ::
    (if level = "high" ∨ level = "maximum" then alternativeSettings else [])

/-- One attempt of the running-best accumulator of `compressPDF`: a failed
save keeps the current best, a successful save replaces it iff strictly
smaller (`if (result.length < bestSize)`, with `bestSize` starting at
`Infinity`). -/
def bestStep (saveFn : SaveSettings → Option PDFBytes)
    (best : Option PDFBytes) (s : SaveSettings) : Option PDFBytes :=
  match saveFn s with
  | none => best
  | some b =>
    match best with
    | none => some b
    | some b0 => if b.size < b0.size then some b else some b0

/-- The whole candidate loop of `compressPDF` over a profile list. -/
def tryProfiles (saveFn : SaveSettings → Option PDFBytes)
    (ps : List SaveSettings) : Option PDFBytes :=
  ps.foldl (bestStep saveFn) none

/-- Candidate selection and final validation of `compressPDF`, given the save
primitive for the document being serialized: keep the smallest successful
candidate; if none succeeded, save once with `basicSettings`; then run the
single `PDFDocument.load` validation on the winner and fail hard if it does
not load. -/
def compressCore (saveFn : SaveSettings → Option PDFBytes) (level : String) :
    Except String PDFBytes :=
  match tryProfiles saveFn (compressProfiles level) with
  | some b =>
    if b.validLoad then .ok b
    else .error "Compression resulted in corrupted PDF"
  | none =>
    match saveFn basicSettings with
    | some b =>
      if b.validLoad then .ok b
      else .error "Compression resulted in corrupted PDF"
    | none => .error "PDF compression failed"

/-- For `maximum`, `compressPDF` first copies all pages into a fresh document
(best effort: on copy failure it keeps the original), so saves act on the
rebuilt graph; every other tier saves the loaded document itself. -/
def effectiveSave (saveOrig saveRebuilt : SaveSettings → Option PDFBytes)
    (rebuildOk : Bool) (level : String) : SaveSettings → Option PDFBytes :=
  if level = "maximum" ∧ rebuildOk then saveRebuilt else saveOrig

/-- `compressPDF` for one input document, abstracted over the save oracles. -/
def compressPDF (saveOrig saveRebuilt : SaveSettings → Option PDFBytes)
    (rebuildOk : Bool) (level : String) : Except String PDFBytes :=
  compressCore (effectiveSave saveOrig saveRebuilt rebuildOk level) level

/-! ## Concrete environments used by witnesses and counterexamples -/

/-- Concrete merge inputs for the C2 witness: two clean one-page documents. -/
def mergeDocsW : List MergeDoc :=
  [⟨1000, true, 1, fun _ => false, fun _ => false⟩,
   ⟨1000, true, 1, fun _ => false, fun _ => false⟩]

/-- Save oracle for the C2 witness: the saved bytes re-load with 2 pages and
pass every structural check. -/
def mergeEnvW : MergeEnv :=
  ⟨some ⟨some 2, true, true, true, true⟩⟩

/-- C9 counterexample inputs: no skips (two clean one-page documents). -/
def mergeDocsA : List MergeDoc :=
  [⟨1000, true, 1, fun _ => false, fun _ => false⟩,
   ⟨1000, true, 1, fun _ => false, fun _ => false⟩]

/-- C9 counterexample inputs: the first document has 2 pages, its only batch
throws, and the retry of page index 1 also throws — one page is skipped. -/
def mergeDocsB : List MergeDoc :=
  [⟨1000, true, 2, fun i => i == 0, fun j => j == 1⟩,
   ⟨1000, true, 1, fun _ => false, fun _ => false⟩]

/-- Save oracle shared by both C9 runs: valid bytes re-loading with 2 pages. -/
def mergeEnvC9 : MergeEnv :=
  ⟨some ⟨some 2, true, true, true, true⟩⟩

/-- Save oracle refuting C1: the tier's primary profile produces a valid
10-byte candidate, one alternative produces a smaller but invalid 5-byte
candidate, everything else throws. -/
def cexSaveHigh : SaveSettings → Option PDFBytes := fun s =>
  if s = primarySettings "high" then some ⟨10, true⟩
  else if s = ⟨false, false, 5, false, true⟩ then some ⟨5, false⟩
  else none

/-- Save oracle for the C1 witness: only the `low` primary profile saves,
producing a valid candidate. -/
def wSaveLow : SaveSettings → Option PDFBytes := fun s =>
  if s = primarySettings "low" then some ⟨10, true⟩ else none

/-- Save oracle refuting C8: every profile saves validly, but the `low`
primary profile happens to produce 10 bytes while the `medium` primary
profile produces 20. -/
def cexSaveTiers : SaveSettings → Option PDFBytes := fun s =>
  if s = primarySettings "low" then some ⟨10, true⟩
  else if s = primarySettings "medium" then some ⟨20, true⟩
  else some ⟨30, true⟩

/-! ## Supporting lemmas -/

/-- A literal global replacement leaves a string without the pattern
untouched, for any amount of fuel. -/
theorem replaceAllAux_no_occurrence (pat repl : List Char) :
    ∀ (fuel : Nat) (s : List Char), ¬ pat <:+: s →
      replaceAllAux pat repl fuel s = s := by
  intro fuel
  induction fuel with
  | zero => intro s _; rfl
  | succ fuel ih =>
    intro s h
    match s with
    | [] => rfl
    | c :: rest =>
      have hpre : pat.isPrefixOf (c :: rest) = false := by
        by_contra hne
        have : pat <+: c :: rest := by
          have := eq_true_of_ne_false hne
          simpa using this
        exact h this.isInfix
      have hrest : ¬ pat <:+: rest := fun hr => h (List.infix_cons hr)
      simp only [replaceAllAux, hpre, Bool.and_false, Bool.false_eq_true, if_false,
        ih rest hrest]

/-- `replaceAll` is the identity when the pattern does not occur. -/
theorem replaceAll_no_occurrence (pat repl s : List Char) (h : ¬ pat <:+: s) :
    replaceAll pat repl s = s :=
  replaceAllAux_no_occurrence pat repl s.length s h

/-! ## C5: template precedence -/

/-- C5.  `processTemplate` applies the five substitutions in strict
precedence order — `Page (x) of (y)`, then `(x) of (y)`, then `Page (x)`,
then `(x)`, then `(file)` — so the most specific pattern wins:
`"Page (x) of (y) - (x)"` at page 3 of 10 yields `"Page 3 of 10 - 3"`.
A string containing no placeholder (no occurrence of `(x)` or `(file)`,
which every one of the five patterns contains) is returned unchanged, and
the empty input yields the empty output. -/
theorem processTemplate_precedence :
    processTemplate "Page (x) of (y) - (x)".toList 3 10 = "Page 3 of 10 - 3".toList
    ∧ (∀ (s : List Char) (n m : Nat),
        ¬ ("(x)".toList <:+: s) → ¬ ("(file)".toList <:+: s) →
        processTemplate s n m = s)
    ∧ (∀ n m : Nat, processTemplate [] n m = []) := by
  refine ⟨by decide, ?_, ?_⟩
  · intro s n m hx hf
    have h1 : ¬ ("Page (x) of (y)".toList <:+: s) := fun h =>
      hx ((by decide : "(x)".toList <:+: "Page (x) of (y)".toList).trans h)
    have h2 : ¬ ("(x) of (y)".toList <:+: s) := fun h =>
      hx ((by decide : "(x)".toList <:+: "(x) of (y)".toList).trans h)
    have h3 : ¬ ("Page (x)".toList <:+: s) := fun h =>
      hx ((by decide : "(x)".toList <:+: "Page (x)".toList).trans h)
    unfold processTemplate
    rw [replaceAll_no_occurrence _ _ _ h1, replaceAll_no_occurrence _ _ _ h2,
      replaceAll_no_occurrence _ _ _ h3, replaceAll_no_occurrence _ _ _ hx,
      replaceAll_no_occurrence _ _ _ hf]
  · intro n m; rfl

/-- Closed witness for C5: a placeholder-free string passes through
`processTemplate` unchanged. -/
theorem processTemplate_precedence_witness :
    processTemplate "hello world".toList 3 10 = "hello world".toList :=
  processTemplate_precedence.2.1 "hello world".toList 3 10 (by decide) (by decide)

/-! ## C10: hexToRgb -/

/-- Any single hex digit decodes to at most 15 (non-digits decode to 0). -/
theorem hexVal_le_15 (c : Char) : hexVal c ≤ 15 := by
  unfold hexVal
  split_ifs with h1 h2 h3
  · simp_all; omega
  · simp_all
  · simp_all
  · simp_all

/-- Each decoded color component lies in `[0, 1]`. -/
theorem componentVal_bounds (a b : Char) :
    0 ≤ componentVal a b ∧ componentVal a b ≤ 1 := by
  unfold componentVal
  constructor
  · positivity
  · rw [div_le_one (by norm_num)]
    have ha := hexVal_le_15 a
    have hb := hexVal_le_15 b
    have h : (hexVal a * 16 + hexVal b : ℕ) ≤ 255 := by omega
    exact_mod_cast h

/-- C10.  `hexToRgb` returns black on any string that does not match
`/^#?([a-f\d]{2}){3}$/i`; on a match it returns each component as its
two-hex-digit value divided by 255; and every returned component lies in
`[0, 1]`. -/
theorem hexToRgb_spec :
    (∀ s : List Char, matchesHex s = false → hexToRgb s = (0, 0, 0))
    ∧ (∀ a b c d e f : Char,
        isHexDig a = true → isHexDig b = true → isHexDig c = true →
        isHexDig d = true → isHexDig e = true → isHexDig f = true →
        hexToRgb ('#' :: [a, b, c, d, e, f])
            = (componentVal a b, componentVal c d, componentVal e f)
        ∧ hexToRgb [a, b, c, d, e, f]
            = (componentVal a b, componentVal c d, componentVal e f))
    ∧ (∀ s : List Char,
        0 ≤ (hexToRgb s).1 ∧ (hexToRgb s).1 ≤ 1
        ∧ 0 ≤ (hexToRgb s).2.1 ∧ (hexToRgb s).2.1 ≤ 1
        ∧ 0 ≤ (hexToRgb s).2.2 ∧ (hexToRgb s).2.2 ≤ 1) := by
  refine ⟨?_, ?_, ?_⟩
  · intro s h
    unfold hexToRgb
    split
    next a b c d e f heq =>
      unfold matchesHex at h
      rw [heq] at h
      have h6 : (isHexDig a && isHexDig b && isHexDig c && isHexDig d && isHexDig e
          && isHexDig f) = false := h
      simp [h6]
    next => rfl
  · intro a b c d e f ha hb hc hd he hf
    have ha' : a ≠ '#' := by
      intro hh
      rw [hh] at ha
      exact absurd ha (by decide)
    have hbody : hexBody (a :: [b, c, d, e, f]) = a :: [b, c, d, e, f] := by
      unfold hexBody
      split
      next r heq =>
        exact absurd (List.head_eq_of_cons_eq heq) ha'
      next => rfl
    constructor
    · unfold hexToRgb
      show (match hexBody ('#' :: [a, b, c, d, e, f]) with
        | [a, b, c, d, e, f] =>
          if isHexDig a && isHexDig b && isHexDig c && isHexDig d && isHexDig e
              && isHexDig f then
            (componentVal a b, componentVal c d, componentVal e f)
          else (0, 0, 0)
        | _ => ((0 : ℚ), (0 : ℚ), (0 : ℚ))) = _
      have : hexBody ('#' :: [a, b, c, d, e, f]) = [a, b, c, d, e, f] := rfl
      rw [this]
      simp [ha, hb, hc, hd, he, hf]
    · unfold hexToRgb
      rw [hbody]
      simp [ha, hb, hc, hd, he, hf]
  · intro s
    have hb := componentVal_bounds
    unfold hexToRgb
    split
    next a b c d e f _ =>
      split
      · exact ⟨(hb a b).1, (hb a b).2, (hb c d).1, (hb c d).2, (hb e f).1, (hb e f).2⟩
      · norm_num
    next => norm_num

/-- Closed witness for C10: `#ff0000` decodes to componentwise hex/255. -/
theorem hexToRgb_spec_witness :
    hexToRgb ('#' :: ['f', 'f', '0', '0', '0', '0'])
      = (componentVal 'f' 'f', componentVal '0' '0', componentVal '0' '0') :=
  (hexToRgb_spec.2.1 'f' 'f' '0' '0' '0' '0' (by decide) (by decide) (by decide)
    (by decide) (by decide) (by decide)).1

/-! ## C3: watermark numeric handling

The claim says fontSize is clamped into 12–100, opacity into 0.1–1.0 and
rotation into −90–90.  The source clamps opacity into `[0, 1]` only, and does
not range-clamp fontSize or rotation at all (`parseInt(·) || default`). -/

/-- Counterexample to C3 as stated: fontSize 500 stays 500 (not clamped to
100), rotation 180 stays 180 (not clamped to 90), and opacity 0.05 stays
0.05 (not raised to the claimed 0.1 lower bound). -/
theorem watermark_clamp_cex :
    watermarkSize (some 500) = 500 ∧ ¬ (watermarkSize (some 500) ≤ 100)
    ∧ watermarkRotation (some 180) = 180 ∧ ¬ (watermarkRotation (some 180) ≤ 90)
    ∧ watermarkOpacity (some (1 / 20)) = some (1 / 20) ∧ (1 / 20 : ℚ) < 1 / 10 := by
  refine ⟨rfl, by decide, rfl, by decide, ?_, by norm_num⟩
  unfold watermarkOpacity
  norm_num

/-- C3 amended.  Opacity is clamped into `[0, 1]` when parseable (`NaN`
propagates); fontSize and rotation are not range-clamped: unparsable or zero
input falls back to the defaults 48 and 45, any other integer passes through
unchanged.  The normalization is total — no numeric value is rejected. -/
theorem watermark_numeric_amended :
    ∀ (o : ℚ) (f r : ℤ),
      (watermarkOpacity (some o) = some (max 0 (min 1 o))
        ∧ 0 ≤ max 0 (min 1 o) ∧ max 0 (min 1 o) ≤ 1)
      ∧ watermarkOpacity none = none
      ∧ (f ≠ 0 → watermarkSize (some f) = f)
      ∧ watermarkSize (some 0) = 48
      ∧ watermarkSize none = 48
      ∧ (r ≠ 0 → watermarkRotation (some r) = r)
      ∧ watermarkRotation (some 0) = 45
      ∧ watermarkRotation none = 45 := by
  intro o f r
  refine ⟨⟨rfl, le_max_left 0 _, max_le (by norm_num) (min_le_left 1 o)⟩,
    rfl, ?_, rfl, rfl, ?_, rfl, rfl⟩
  · intro hf; simp [watermarkSize, hf]
  · intro hr; simp [watermarkRotation, hr]

/-- Closed witness for the amended C3 at concrete inputs. -/
theorem watermark_numeric_amended_witness :
    watermarkSize (some 50) = 50 ∧ watermarkRotation (some (-30)) = -30 :=
  ⟨(watermark_numeric_amended (1 / 2) 50 (-30)).2.2.1 (by decide),
   (watermark_numeric_amended (1 / 2) 50 (-30)).2.2.2.2.2.1 (by decide)⟩

/-! ## C4: header/footer start page -/

/-- Counterexample to C4 as stated: `startPage = 0` on a 1-page document does
not begin at the first page — the loop starts at index −1, `pages[-1]` is
`undefined`, and the whole operation fails. -/
theorem headerFooter_no_clamp_cex :
    headerFooterPageLoop 0 1 = .error "PDF processing failed"
    ∧ headerFooterPageLoop 0 1 ≠ .ok [0] := by
  constructor
  · rfl
  · intro h
    rw [show headerFooterPageLoop 0 1 = Except.error "PDF processing failed" from rfl] at h
    exact Except.noConfusion h

/-- The loop visits exactly `[j, pageCount)` when started at a nonnegative
index `j`, for enough fuel. -/
theorem hfLoop_ok (count : Nat) :
    ∀ (fuel j : Nat), count ≤ j + fuel →
      hfLoop count fuel (j : ℤ) = .ok (List.range' j (count - j)) := by
  intro fuel
  induction fuel with
  | zero =>
    intro j h
    have hj : count - j = 0 := by omega
    rw [hj]
    rfl
  | succ fuel ih =>
    intro j h
    show hfLoop count (fuel + 1) (j : ℤ) = _
    unfold hfLoop
    by_cases hj : j < count
    · have hjc : (j : ℤ) < (count : ℤ) := by exact_mod_cast hj
      have hj0 : ¬ ((j : ℤ) < 0) := by omega
      have hrec : hfLoop count fuel ((j : ℤ) + 1) = .ok (List.range' (j + 1) (count - (j + 1))) := by
        have := ih (j + 1) (by omega)
        simpa [Int.natCast_add] using this
      simp only [hjc, if_true, hj0, if_false, hrec, Int.toNat_natCast]
      have : count - j = (count - (j + 1)) + 1 := by omega
      rw [this, List.range'_succ]
    · have hjc : ¬ ((j : ℤ) < (count : ℤ)) := by exact_mod_cast hj
      have : count - j = 0 := by omega
      simp [hjc, this]

/-- C4 amended.  The iteration starts at `startPage - 1` with no clamping:
`startPage ≥ 1` annotates exactly pages `startPage-1 .. pageCount-1` (none
when `startPage > pageCount`), while `startPage ≤ 0` makes the whole
operation fail with an out-of-range page access. -/
theorem headerFooter_startPage_amended :
    ∀ (sp : ℤ) (count : Nat),
      (1 ≤ sp → headerFooterPageLoop sp count
          = .ok (List.range' (sp - 1).toNat (count - (sp - 1).toNat)))
      ∧ (sp ≤ 0 → headerFooterPageLoop sp count = .error "PDF processing failed") := by
  intro sp count
  constructor
  · intro hsp
    unfold headerFooterPageLoop
    have hcast : (sp - 1) = (((sp - 1).toNat : Nat) : ℤ) := by omega
    rw [hcast]
    exact hfLoop_ok count (count + 1) (sp - 1).toNat (by omega)
  · intro hsp
    unfold headerFooterPageLoop
    show hfLoop count (count + 1) (sp - 1) = _
    unfold hfLoop
    have h1 : sp - 1 < (count : ℤ) := by omega
    have h2 : sp - 1 < 0 := by omega
    simp [h1, h2]

/-- Closed witness for the amended C4: `startPage = 2` on 3 pages annotates
pages 2 and 3; `startPage = 0` fails. -/
theorem headerFooter_startPage_amended_witness :
    headerFooterPageLoop 2 3 = .ok (List.range' 1 2)
    ∧ headerFooterPageLoop 0 3 = .error "PDF processing failed" :=
  ⟨(headerFooter_startPage_amended 2 3).1 (by decide),
   (headerFooter_startPage_amended 0 3).2 (by decide)⟩

/-! ## C6: EveryN split exhaustiveness -/

/-- The floored chunk size is at least 1. -/
theorem one_le_flooredChunk (c : ℤ) : 1 ≤ flooredChunk c := by
  unfold flooredChunk
  omega

/-- Past the end, the `every` loop produces nothing. -/
theorem everyNAux_nil (total n fuel i : Nat) (h : total ≤ i) :
    everyNAux total n fuel i = [] := by
  cases fuel with
  | zero => rfl
  | succ fuel => simp [everyNAux, Nat.not_lt.mpr h]

/-- Before the end (with enough fuel), the `every` loop produces at least
one group. -/
theorem everyNAux_ne_nil (total n fuel i : Nat) (hi : i < total)
    (hf : total - i ≤ fuel) : everyNAux total n fuel i ≠ [] := by
  cases fuel with
  | zero => omega
  | succ fuel => simp [everyNAux, hi]

/-- Concatenating the `every` groups from `i` gives exactly `[i, total)`. -/
theorem everyNAux_join (total n : Nat) (hn : 1 ≤ n) :
    ∀ (fuel i : Nat), total - i ≤ fuel →
      (everyNAux total n fuel i).flatten = List.range' i (total - i) := by
  intro fuel
  induction fuel with
  | zero =>
    intro i h
    have h0 : total - i = 0 := by omega
    rw [h0]
    rfl
  | succ fuel ih =>
    intro i h
    show (everyNAux total n (fuel + 1) i).flatten = _
    unfold everyNAux
    by_cases hi : i < total
    · rw [if_pos hi, List.flatten_cons]
      by_cases hin : i + n ≤ total
      · have hmin : min (i + n) total - i = n := by omega
        rw [hmin, ih (i + n) (by omega)]
        have happ := List.range'_append_1 i n (total - (i + n))
        rw [happ]
        congr 1
        omega
      · have hmin : min (i + n) total - i = total - i := by omega
        rw [hmin, everyNAux_nil total n fuel (i + n) (by omega)]
        simp
    · rw [if_neg hi]
      have h0 : total - i = 0 := by omega
      rw [h0]
      rfl

/-- Every group except the last has exactly the chunk size. -/
theorem everyNAux_dropLast (total n : Nat) (hn : 1 ≤ n) :
    ∀ (fuel i : Nat), total - i ≤ fuel →
      ∀ g ∈ (everyNAux total n fuel i).dropLast, g.length = n := by
  intro fuel
  induction fuel with
  | zero =>
    intro i _ g hg
    simp [everyNAux] at hg
  | succ fuel ih =>
    intro i h g hg
    rw [show everyNAux total n (fuel + 1) i
        = if i < total then
            List.range' i (min (i + n) total - i) :: everyNAux total n fuel (i + n)
          else [] from rfl] at hg
    by_cases hi : i < total
    · rw [if_pos hi] at hg
      by_cases hin : i + n < total
      · have hne := everyNAux_ne_nil total n fuel (i + n) hin (by omega)
        rw [List.dropLast_cons_of_ne_nil hne] at hg
        rcases List.mem_cons.mp hg with hg | hg
        · rw [hg, List.length_range']
          omega
        · exact ih (i + n) (by omega) g hg
      · rw [everyNAux_nil total n fuel (i + n) (by omega)] at hg
        simp at hg
    · rw [if_neg hi] at hg
      simp at hg

/-- The last group has `(total - i) % n` pages, or `n` when that remainder
is zero. -/
theorem everyNAux_getLast (total n : Nat) (hn : 1 ≤ n) :
    ∀ (fuel i : Nat), total - i ≤ fuel → i < total →
      ∀ g, (everyNAux total n fuel i).getLast? = some g →
        g.length = if (total - i) % n = 0 then n else (total - i) % n := by
  intro fuel
  induction fuel with
  | zero => intro i h hi; omega
  | succ fuel ih =>
    intro i h hi g hg
    rw [show everyNAux total n (fuel + 1) i
        = if i < total then
            List.range' i (min (i + n) total - i) :: everyNAux total n fuel (i + n)
          else [] from rfl, if_pos hi] at hg
    by_cases hin : i + n < total
    · obtain ⟨t0, ts, ht⟩ :=
        List.exists_cons_of_ne_nil (everyNAux_ne_nil total n fuel (i + n) hin (by omega))
      rw [ht, List.getLast?_cons_cons, ← ht] at hg
      have hrec := ih (i + n) (by omega) hin g hg
      have hmod : (total - i) % n = (total - (i + n)) % n := by
        have hle : n ≤ total - i := by omega
        have := Nat.mod_eq_sub_mod hle
        rw [this]
        congr 1
        omega
      rw [hmod]
      exact hrec
    · rw [everyNAux_nil total n fuel (i + n) (by omega), List.getLast?_singleton] at hg
      have hg' : g = List.range' i (min (i + n) total - i) := by
        exact (Option.some_inj.mp hg).symm
      rw [hg', List.length_range']
      have hmin : min (i + n) total - i = total - i := by omega
      rw [hmin]
      by_cases he : total - i = n
      · rw [he, Nat.mod_self, if_pos rfl]
      · have hlt : total - i < n := by omega
        rw [Nat.mod_eq_of_lt hlt, if_neg (by omega)]

/-- C6.  For every page count `P ≥ 1` and requested chunk size (floored to
`n ≥ 1`), the `every` split produces contiguous, non-overlapping groups whose
concatenation covers exactly `[0, P)` in order; every group except possibly
the last has exactly `n` pages, and the last has `P % n` pages (or `n` when
`P % n = 0`). -/
theorem everyN_split_exhaustive :
    ∀ (P : Nat) (c : ℤ), 1 ≤ P →
      (everyNGroups P c).flatten = List.range P
      ∧ (∀ g ∈ (everyNGroups P c).dropLast, g.length = flooredChunk c)
      ∧ (∀ g, (everyNGroups P c).getLast? = some g →
          g.length = if P % flooredChunk c = 0 then flooredChunk c
            else P % flooredChunk c) := by
  intro P c hP
  have hn := one_le_flooredChunk c
  refine ⟨?_, ?_, ?_⟩
  · rw [show everyNGroups P c = everyNAux P (flooredChunk c) P 0 from rfl,
      everyNAux_join P (flooredChunk c) hn P 0 (by omega), List.range_eq_range',
      Nat.sub_zero]
  · intro g hg
    exact everyNAux_dropLast P (flooredChunk c) hn P 0 (by omega) g hg
  · intro g hg
    have := everyNAux_getLast P (flooredChunk c) hn P 0 (by omega) (by omega) g hg
    simpa using this

/-- Closed witness for C6: a 5-page document split every 2 pages. -/
theorem everyN_split_exhaustive_witness :
    (everyNGroups 5 2).flatten = List.range 5
    ∧ (∀ g ∈ (everyNGroups 5 2).dropLast, g.length = flooredChunk 2) :=
  ⟨(everyN_split_exhaustive 5 2 (by decide)).1,
   (everyN_split_exhaustive 5 2 (by decide)).2.1⟩

/-! ## C7: Pages-mode split -/

/-- The `pages` loop is exactly filter-then-singleton-map over the caller
list, preserving order and duplicates. -/
theorem pagesGroups_eq (total : Nat) :
    ∀ ps : List ℤ,
      pagesGroups total ps
        = (ps.filter (fun p => decide (0 < p ∧ p ≤ (total : ℤ)))).map
            (fun p => [(p - 1).toNat]) := by
  intro ps
  induction ps with
  | nil => rfl
  | cons p ps ih =>
    unfold pagesGroups
    by_cases hp : 0 < p ∧ p ≤ (total : ℤ)
    · rw [if_pos hp, List.filter_cons, if_pos (by simpa using hp), List.map_cons, ih]
    · rw [if_neg hp, List.filter_cons, if_neg (by simpa using hp), ih]

/-- Inverting the trailing zero-groups check: a successful split returns the
computed groups, and they are nonempty. -/
theorem checkGroups_ok (rs gs : List (List Nat)) (h : checkGroups rs = .ok gs) :
    gs = rs ∧ rs ≠ [] := by
  unfold checkGroups at h
  by_cases h0 : rs.length = 0
  · rw [if_pos h0] at h
    exact absurd h (by simp)
  · rw [if_neg h0] at h
    refine ⟨(Except.ok.inj h).symm, ?_⟩
    intro hnil
    exact h0 (by rw [hnil]; rfl)

/-- C7.  Pages-mode split preserves caller order and duplicates (the result
is precisely the in-range entries, each as one single-page group); entries
`≤ 0` or `> pageCount` are dropped silently; and — in every split mode — a
plan that filters down to zero groups is a hard error, never an empty
success. -/
theorem split_pages_mode :
    (∀ (total : Nat) (ps : List ℤ) (rs : List (ℤ × ℤ)) (e : ℤ) (gs : List (List Nat)),
        splitPDF "pages" ps rs e total = .ok gs →
        gs = (ps.filter (fun p => decide (0 < p ∧ p ≤ (total : ℤ)))).map
            (fun p => [(p - 1).toNat]))
    ∧ (∀ (total : Nat) (ps : List ℤ) (rs : List (ℤ × ℤ)) (e : ℤ),
        (∀ p ∈ ps, ¬ (0 < p ∧ p ≤ (total : ℤ))) →
        splitPDF "pages" ps rs e total
          = .error "No valid pages or ranges specified for splitting")
    ∧ (∀ (t : String) (ps : List ℤ) (rs : List (ℤ × ℤ)) (e : ℤ) (total : Nat)
          (gs : List (List Nat)),
        splitPDF t ps rs e total = .ok gs → gs ≠ []) := by
  refine ⟨?_, ?_, ?_⟩
  · intro total ps rs e gs h
    have h' : checkGroups (pagesGroups total ps) = .ok gs := by
      simpa [splitPDF] using h
    rw [(checkGroups_ok _ _ h').1, pagesGroups_eq]
  · intro total ps rs e hall
    have hnil : pagesGroups total ps = [] := by
      rw [pagesGroups_eq]
      rw [List.filter_eq_nil_iff.mpr (by intro p hp; simpa using hall p hp)]
      rfl
    show splitPDF "pages" ps rs e total = _
    simp only [splitPDF, if_pos rfl, hnil]
    rfl
  · intro t ps rs e total gs h
    unfold splitPDF at h
    by_cases h1 : t = "pages"
    · rw [if_pos h1] at h
      obtain ⟨rfl, hne⟩ := checkGroups_ok _ _ h
      exact hne
    · rw [if_neg h1] at h
      by_cases h2 : t = "ranges"
      · rw [if_pos h2] at h
        obtain ⟨rfl, hne⟩ := checkGroups_ok _ _ h
        exact hne
      · rw [if_neg h2] at h
        by_cases h3 : t = "every"
        · rw [if_pos h3] at h
          obtain ⟨rfl, hne⟩ := checkGroups_ok _ _ h
          exact hne
        · rw [if_neg h3] at h
          exact absurd h (by simp)

/-- Closed witness for C7: requesting pages `[3, 3, 99, 0]` of a 10-page
document keeps the duplicate 3 twice and silently drops 99 and 0. -/
theorem split_pages_mode_witness :
    ([[2], [2]] : List (List Nat))
      = (([3, 3, 99, 0] : List ℤ).filter (fun p => decide (0 < p ∧ p ≤ (10 : ℤ)))).map
          (fun p => [(p - 1).toNat]) :=
  split_pages_mode.1 10 [3, 3, 99, 0] [] 1 [[2], [2]] rfl

/-! ## C2: merge page-count invariant -/

/-- Inverting a successful merge: the returned bytes are the saved bytes,
their strict re-load count equals the number of pages actually copied, and
all four structural checks passed. -/
theorem mergePDFs_ok (docs : List MergeDoc) (env : MergeEnv) (sb : SavedBytes)
    (h : mergePDFs docs env = .ok sb) :
    env.saveResult = some sb
    ∧ sb.reloadCount = some (totalCopied docs)
    ∧ sb.headerOk = true ∧ sb.trailerOk = true ∧ sb.catalogOk = true
    ∧ sb.pagesOk = true := by
  unfold mergePDFs at h
  by_cases d0 : docs.length = 0
  · rw [if_pos d0] at h
    exact absurd h (by simp)
  rw [if_neg d0] at h
  by_cases d1 : docs.length = 1
  · rw [if_pos d1] at h
    exact absurd h (by simp)
  rw [if_neg d1] at h
  by_cases dsz : docs.foldl (fun acc d => acc + d.sizeBytes) 0 > 500 * 1048576
  · rw [if_pos dsz] at h
    exact absurd h (by simp)
  rw [if_neg dsz] at h
  by_cases dld : (!docs.all fun d => d.loadOk) = true
  · rw [if_pos dld] at h
    exact absurd h (by simp)
  rw [if_neg dld] at h
  cases hs : env.saveResult with
  | none =>
    rw [hs] at h
    exact absurd h (by simp)
  | some sb0 =>
    rw [hs] at h
    dsimp only at h
    cases hr : sb0.reloadCount with
    | none =>
      rw [hr] at h
      exact absurd h (by simp)
    | some c =>
      rw [hr] at h
      dsimp only at h
      by_cases b1 : (!sb0.headerOk) = true
      · rw [if_pos b1] at h
        exact absurd h (by simp)
      rw [if_neg b1] at h
      by_cases b2 : (!sb0.trailerOk) = true
      · rw [if_pos b2] at h
        exact absurd h (by simp)
      rw [if_neg b2] at h
      by_cases b3 : (!sb0.catalogOk) = true
      · rw [if_pos b3] at h
        exact absurd h (by simp)
      rw [if_neg b3] at h
      by_cases b4 : (!sb0.pagesOk) = true
      · rw [if_pos b4] at h
        exact absurd h (by simp)
      rw [if_neg b4] at h
      by_cases bc : c = totalCopied docs
      · rw [if_pos bc] at h
        have hsb : sb0 = sb := Except.ok.inj h
        subst hsb
        refine ⟨rfl, ?_, ?_, ?_, ?_, ?_⟩
        · rw [hr, bc]
        · simpa using b1
        · simpa using b2
        · simpa using b3
        · simpa using b4
      · rw [if_neg bc] at h
        exact absurd h (by simp)

/-- C2.  Whenever merge returns bytes, their re-load page count equals the
number of successfully copied pages (and the structural checks all passed);
when no page was skipped during copying, that number is exactly the sum of
the input page counts.  A mismatch or structural failure never reaches the
`.ok` branch. -/
theorem merge_pageCount_invariant :
    ∀ (docs : List MergeDoc) (env : MergeEnv) (sb : SavedBytes),
      mergePDFs docs env = .ok sb →
      (sb.reloadCount = some (totalCopied docs)
       ∧ sb.headerOk = true ∧ sb.trailerOk = true ∧ sb.catalogOk = true
       ∧ sb.pagesOk = true)
      ∧ ((∀ d ∈ docs, copiedPages d = List.range d.pageCount) →
          sb.reloadCount = some ((docs.map (fun d => d.pageCount)).sum)) := by
  intro docs env sb h
  obtain ⟨-, hrc, h1, h2, h3, h4⟩ := mergePDFs_ok docs env sb h
  refine ⟨⟨hrc, h1, h2, h3, h4⟩, ?_⟩
  intro hall
  rw [hrc]
  congr 1
  unfold totalCopied
  refine congrArg List.sum (List.map_congr_left ?_)
  intro d hd
  rw [hall d hd, List.length_range]

/-- Closed witness for C2: a merge of two one-page documents with no skips
returns bytes whose re-load count is the 2 = 1 + 1 input pages. -/
theorem merge_pageCount_invariant_witness :
    (⟨some 2, true, true, true, true⟩ : SavedBytes).reloadCount
      = some ((mergeDocsW.map (fun d => d.pageCount)).sum) :=
  (merge_pageCount_invariant mergeDocsW mergeEnvW ⟨some 2, true, true, true, true⟩ rfl).2
    (by decide)

/-! ## C9: skipped pages and what the caller sees

In the source, pages that fail the batch copy and the individual retry are
skipped with `console.error` only; `mergePDFs` returns just the saved bytes
and the controller streams them back with HTTP headers — no field of the
response carries the skip count. -/

/-- Counterexample to C9 as stated: a merge that skipped one page returns a
value identical to a merge that skipped none, so no count of skipped pages
is reported in what the caller receives — the skip is observable only in
internal logs. -/
theorem merge_skip_not_reported_cex :
    mergePDFs mergeDocsA mergeEnvC9 = mergePDFs mergeDocsB mergeEnvC9
    ∧ skippedTotal mergeDocsA = 0
    ∧ skippedTotal mergeDocsB = 1 := by
  refine ⟨rfl, by decide, by decide⟩

/-- C9 amended.  Pages skipped after the batch and individual retries both
fail do not abort the merge: validation compares the re-load count against
the post-skip total, so the merge still returns bytes; but the skip count is
only logged internally and is not part of the returned value. -/
theorem merge_skip_tolerated :
    (∀ (docs : List MergeDoc) (env : MergeEnv) (sb : SavedBytes),
        mergePDFs docs env = .ok sb → sb.reloadCount = some (totalCopied docs))
    ∧ mergePDFs mergeDocsB mergeEnvC9 = .ok ⟨some 2, true, true, true, true⟩
    ∧ skippedTotal mergeDocsB = 1 := by
  refine ⟨?_, rfl, by decide⟩
  intro docs env sb h
  exact (mergePDFs_ok docs env sb h).2.1

/-- Closed witness for the amended C9, applying its universal part to the
concrete one-page-skipped merge. -/
theorem merge_skip_tolerated_witness :
    (⟨some 2, true, true, true, true⟩ : SavedBytes).reloadCount
      = some (totalCopied mergeDocsB) :=
  merge_skip_tolerated.1 mergeDocsB mergeEnvC9 ⟨some 2, true, true, true, true⟩ rfl

/-! ## C1 and C8: compression candidate selection -/

/-- A step of the running best never increases the recorded size past an
accumulator it replaces. -/
theorem bestStep_le_acc (f : SaveSettings → Option PDFBytes) (s : SaveSettings)
    (c c' : PDFBytes) (h : bestStep f (some c) s = some c') : c'.size ≤ c.size := by
  unfold bestStep at h
  cases hfs : f s with
  | none =>
    rw [hfs] at h
    rw [← Option.some_inj.mp h]
  | some b1 =>
    rw [hfs] at h
    dsimp only at h
    by_cases hlt : b1.size < c.size
    · rw [if_pos hlt] at h
      rw [← Option.some_inj.mp h]
      exact le_of_lt hlt
    · rw [if_neg hlt] at h
      rw [← Option.some_inj.mp h]

/-- A step of the running best never keeps a result larger than a candidate
the save just produced. -/
theorem bestStep_le_new (f : SaveSettings → Option PDFBytes)
    (acc : Option PDFBytes) (s : SaveSettings) (c c' : PDFBytes)
    (hc : f s = some c) (h : bestStep f acc s = some c') : c'.size ≤ c.size := by
  unfold bestStep at h
  rw [hc] at h
  cases acc with
  | none =>
    rw [← Option.some_inj.mp h]
  | some b0 =>
    dsimp only at h
    by_cases hlt : c.size < b0.size
    · rw [if_pos hlt] at h
      rw [← Option.some_inj.mp h]
    · rw [if_neg hlt] at h
      rw [← Option.some_inj.mp h]
      omega

/-- The running best is empty exactly when both inputs were. -/
theorem bestStep_eq_none (f : SaveSettings → Option PDFBytes)
    (acc : Option PDFBytes) (s : SaveSettings) :
    bestStep f acc s = none ↔ acc = none ∧ f s = none := by
  unfold bestStep
  cases hfs : f s with
  | none => simp
  | some b =>
    cases acc with
    | none => simp
    | some b0 =>
      dsimp only
      constructor
      · intro h
        by_cases hlt : b.size < b0.size
        · rw [if_pos hlt] at h
          cases h
        · rw [if_neg hlt] at h
          cases h
      · rintro ⟨h, -⟩
        cases h

/-- The candidate loop returns a size-minimal successful candidate: the
result is no larger than anything the accumulator held and no larger than
any candidate any profile in the list produced. -/
theorem foldl_bestStep_min (f : SaveSettings → Option PDFBytes) :
    ∀ (ps : List SaveSettings) (acc : Option PDFBytes) (b : PDFBytes),
      ps.foldl (bestStep f) acc = some b →
      (∀ c, acc = some c → b.size ≤ c.size)
      ∧ (∀ s ∈ ps, ∀ c, f s = some c → b.size ≤ c.size) := by
  intro ps
  induction ps with
  | nil =>
    intro acc b h
    rw [List.foldl_nil] at h
    refine ⟨?_, by simp⟩
    intro c hc
    rw [h] at hc
    rw [Option.some_inj.mp hc]
  | cons s ps ih =>
    intro acc b h
    rw [List.foldl_cons] at h
    obtain ⟨ih1, ih2⟩ := ih (bestStep f acc s) b h
    constructor
    · intro c hc
      cases hbs : bestStep f acc s with
      | none =>
        obtain ⟨ha, -⟩ := (bestStep_eq_none f acc s).mp hbs
        rw [hc] at ha
        cases ha
      | some c' =>
        exact le_trans (ih1 c' hbs) (bestStep_le_acc f s c c' (hc ▸ hbs))
    · intro s' hs' c hc
      rcases List.mem_cons.mp hs' with rfl | hmem
      · cases hbs : bestStep f acc s' with
        | none =>
          obtain ⟨-, hfs⟩ := (bestStep_eq_none f acc s').mp hbs
          rw [hc] at hfs
          cases hfs
        | some c' =>
          exact le_trans (ih1 c' hbs) (bestStep_le_new f acc s' c c' hc hbs)
      · exact ih2 s' hmem c hc

/-- The candidate loop yields nothing exactly when every profile's save
failed (and the accumulator was empty). -/
theorem foldl_bestStep_none (f : SaveSettings → Option PDFBytes) :
    ∀ (ps : List SaveSettings) (acc : Option PDFBytes),
      ps.foldl (bestStep f) acc = none ↔ (acc = none ∧ ∀ s ∈ ps, f s = none) := by
  intro ps
  induction ps with
  | nil =>
    intro acc
    simp
  | cons s ps ih =>
    intro acc
    rw [List.foldl_cons, ih (bestStep f acc s)]
    constructor
    · rintro ⟨hbs, hall⟩
      obtain ⟨ha, hfs⟩ := (bestStep_eq_none f acc s).mp hbs
      refine ⟨ha, ?_⟩
      intro s' hs'
      rcases List.mem_cons.mp hs' with rfl | hmem
      · exact hfs
      · exact hall s' hmem
    · rintro ⟨ha, hall⟩
      refine ⟨?_, fun s' hs' => hall s' (List.mem_cons_of_mem s hs')⟩
      exact (bestStep_eq_none f acc s).mpr ⟨ha, hall s (List.mem_cons_self s ps)⟩

/-- Inverting a successful compression: the returned candidate passed the
re-load check, is size-minimal among the successful candidates of the
tier's profiles, and came from the `basicSettings` fallback exactly if every
profile's save failed. -/
theorem compressCore_ok (f : SaveSettings → Option PDFBytes) (level : String)
    (b : PDFBytes) (h : compressCore f level = .ok b) :
    b.validLoad = true
    ∧ (∀ s ∈ compressProfiles level, ∀ c, f s = some c → b.size ≤ c.size)
    ∧ ((∀ s ∈ compressProfiles level, f s = none) → f basicSettings = some b) := by
  unfold compressCore at h
  cases ht : tryProfiles f (compressProfiles level) with
  | some b0 =>
    rw [ht] at h
    dsimp only at h
    by_cases hv : b0.validLoad = true
    · rw [if_pos hv] at h
      have hb : b0 = b := Except.ok.inj h
      subst hb
      refine ⟨hv, ?_, ?_⟩
      · exact (foldl_bestStep_min f (compressProfiles level) none b0 ht).2
      · intro hall
        have : tryProfiles f (compressProfiles level) = none :=
          (foldl_bestStep_none f (compressProfiles level) none).mpr ⟨rfl, hall⟩
        rw [ht] at this
        cases this
    · rw [if_neg hv] at h
      exact absurd h (by simp)
  | none =>
    rw [ht] at h
    dsimp only at h
    cases hb : f basicSettings with
    | none =>
      rw [hb] at h
      exact absurd h (by simp)
    | some b0 =>
      rw [hb] at h
      dsimp only at h
      by_cases hv : b0.validLoad = true
      · rw [if_pos hv] at h
        have hbb : b0 = b := Except.ok.inj h
        subst hbb
        have hall : ∀ s ∈ compressProfiles level, f s = none :=
          ((foldl_bestStep_none f (compressProfiles level) none).mp ht).2
        refine ⟨hv, ?_, fun _ => rfl⟩
        intro s hs c hc
        rw [hall s hs] at hc
        cases hc
      · rw [if_neg hv] at h
        exact absurd h (by simp)

/-- Counterexample to C1 as stated: with a valid size-10 candidate available
from the tier's own profile list, `compressPDF` still fails hard, because it
keeps the smaller size-5 candidate that does not pass the re-load check and
only then validates — it neither returns the best valid candidate nor falls
back when a profile (rather than a save) fails validity. -/
theorem compress_smallest_valid_cex :
    compressPDF cexSaveHigh (fun _ => none) true "high"
      = .error "Compression resulted in corrupted PDF"
    ∧ cexSaveHigh (primarySettings "high") = some ⟨10, true⟩
    ∧ (⟨10, true⟩ : PDFBytes).validLoad = true :=
  ⟨rfl, rfl, rfl⟩

/-- C1 amended.  `compressPDF` keeps the smallest successfully saved
candidate across the tier's profiles regardless of validity; the chosen
candidate is validity-checked once, and a returned candidate always passes
that check (an invalid byte sequence is never returned — the operation
errors instead); the conservative `basicSettings` fallback is used only when
every profile's save attempt itself failed. -/
theorem compress_best_valid_amended :
    ∀ (sO sR : SaveSettings → Option PDFBytes) (rOk : Bool) (level : String)
      (b : PDFBytes),
      compressPDF sO sR rOk level = .ok b →
      b.validLoad = true
      ∧ (∀ s ∈ compressProfiles level, ∀ c,
          effectiveSave sO sR rOk level s = some c → b.size ≤ c.size)
      ∧ ((∀ s ∈ compressProfiles level, effectiveSave sO sR rOk level s = none) →
          effectiveSave sO sR rOk level basicSettings = some b) :=
  fun sO sR rOk level b h =>
    compressCore_ok (effectiveSave sO sR rOk level) level b h

/-- Closed witness for the amended C1 at a concrete environment. -/
theorem compress_best_valid_amended_witness :
    (⟨10, true⟩ : PDFBytes).validLoad = true :=
  (compress_best_valid_amended wSaveLow (fun _ => none) false "low" ⟨10, true⟩ rfl).1

/-- Counterexample to C8 as stated: the tiers try disjoint profile lists, so
nothing orders their chosen sizes — here `medium` returns a strictly larger
output than `low` on the same input. -/
theorem compress_monotonicity_cex :
    compressPDF cexSaveTiers (fun _ => none) false "low" = .ok ⟨10, true⟩
    ∧ compressPDF cexSaveTiers (fun _ => none) false "medium" = .ok ⟨20, true⟩
    ∧ ¬ ((20 : Nat) ≤ 10) :=
  ⟨rfl, rfl, by decide⟩

/-- C8 amended.  Within one tier, `compressPDF` never picks a larger result
when a smaller candidate was successfully saved by that tier's profile list
(the chosen size is minimal among that tier's successful candidates); no
size ordering holds across the four tiers. -/
theorem compress_tier_minimality :
    ∀ (sO sR : SaveSettings → Option PDFBytes) (rOk : Bool) (level : String)
      (b : PDFBytes),
      compressPDF sO sR rOk level = .ok b →
      ∀ s ∈ compressProfiles level, ∀ c,
        effectiveSave sO sR rOk level s = some c → b.size ≤ c.size :=
  fun sO sR rOk level b h =>
    (compressCore_ok (effectiveSave sO sR rOk level) level b h).2.1

/-- Closed witness for the amended C8 at a concrete environment. -/
theorem compress_tier_minimality_witness :
    (⟨10, true⟩ : PDFBytes).size ≤ (⟨10, true⟩ : PDFBytes).size :=
  compress_tier_minimality cexSaveTiers (fun _ => none) false "low" ⟨10, true⟩ rfl
    (primarySettings "low") (List.mem_cons_self _ _) ⟨10, true⟩ rfl

end PdfDost

